import Mathlib

/-!
DMA benchmark (Raspberry Pi 4): embedding of `dma_benchmark.c`.

The C program talks to three outside parties: the kernel (files, `mmap`,
`ioctl`), the VideoCore firmware (mailbox property channel) and the DMA
engine (memory-mapped registers).  The embedding makes every answer of the
outside world a field of an environment record `Env`, and makes every action
of the program on the outside world an `Event` appended to a trace.

Machine integers are natural numbers.  `uint32_t` values are reduced
`% 2 ^ 32` where the C code narrows; `size_t` is `w` bits wide (`w = 32` on an
armhf build, `w = 64` on an aarch64 build) and `size_t` arithmetic is reduced
`% 2 ^ w`.

Not recorded in the trace: console output (`printf`, `perror`), the clock
readings, and the payload bytes moved by `memset`/`memcpy`/`fread`/`fwrite`
(the calls themselves are recorded).
-/

namespace DmaBenchmark

/-! ## Constants (lines 36-84) -/

def BCM_PERI_BASE : Nat := 0xFE000000
def DMA_BASE : Nat := BCM_PERI_BASE + 0x007000
def DMA_LEN : Nat := 0x1000
def PAGE_SIZE : Nat := 4096
def DMA_CHAN : Nat := 5

def PIN_MEMCPY : Nat := 17
def PIN_DMA : Nat := 18

def MEM_FLAG_DIRECT : Nat := 1 <<< 2
def MEM_FLAG_COHERENT : Nat := 2 <<< 2
def MEM_FLAG_L1_NONALLOCATING : Nat := MEM_FLAG_DIRECT ||| MEM_FLAG_COHERENT

def DMA_TI_SRC_INC : Nat := 1 <<< 8
def DMA_TI_DEST_INC : Nat := 1 <<< 4
def DMA_CS_RESET : Nat := 1 <<< 31
def DMA_CS_ACTIVE : Nat := 1 <<< 0

def NUM_RUNS : Nat := 10

/-- Bitwise complement of a 32-bit unsigned value (C `~x` on `unsigned int`). -/
def not32 (x : Nat) : Nat := (2 ^ 32 - 1) ^^^ (x % 2 ^ 32)

/-! ## Data model -/

/-- The control block `dma_cb_t` (lines 58-66); every field is a `uint32_t`. -/
structure dma_cb_t where
  ti : Nat
  source_ad : Nat
  dest_ad : Nat
  txfr_len : Nat
  stride : Nat
  next_cb : Nat
  rsvd : Nat × Nat
  deriving DecidableEq, Repr

/-- The two registers of `dma_chan_regs_t` (lines 70-73). -/
inductive Reg where
  | cs
  | conblk_ad
  deriving DecidableEq, Repr

/-- What the program does to the outside world.  A pointer returned by `mmap`
is `some addr`, and `none` stands for `MAP_FAILED`. -/
inductive Event where
  | gpiod_chip_open_by_name
  | gpiod_chip_get_line (pin : Nat)
  | gpiod_line_request_output (pin : Nat)
  | stat
  | open_dev_mem
  | open_dev_vcio
  | mmap (length : Nat) (offset : Nat) (result : Option Nat)
  | munmap (addr : Option Nat) (length : Nat)
  | ioctl (mbox_buf : List Nat)
  | fopen_src
  | fread (n : Nat)
  | fclose_src
  | memset_dst (n : Nat)
  | memcpy_dst_src (n : Nat)
  | memcmp_src_dst (n : Nat)
  | gpiod_line_set_value (pin : Nat) (value : Nat)
  | cb_filled (cb : dma_cb_t)
  | reg_write (r : Reg) (value : Nat)
  | reg_read (r : Reg) (value : Nat)
  | usleep (us : Nat)
  | fopen_dst
  | fwrite (n : Nat)
  | fclose_dst
  | close (fd : Int)
  | gpiod_line_release (pin : Nat)
  | gpiod_chip_close
  deriving DecidableEq, Repr

/-- One answer of the mailbox `ioctl`: the return code and the buffer as the
firmware left it. -/
abbrev Firmware := List Nat → Int × List Nat

/-! ## Mailbox functions (lines 95-150)

`mbox_buf` is the 32-word stack array; its initial contents are indeterminate
and are passed in.  Each function returns its result together with the events
it performs. -/

/-- Embedding of `mem_alloc` (lines 95-112): the request buffer as handed to `ioctl`. -/
def mem_alloc_buf (mbox_buf : List Nat) (size align flags : Nat) : List Nat :=
  let mbox_buf := mbox_buf.set 0 (9 * 4)
  let mbox_buf := mbox_buf.set 1 0
  let mbox_buf := mbox_buf.set 2 0x3000c
  let mbox_buf := mbox_buf.set 3 12
  let mbox_buf := mbox_buf.set 4 0
  let mbox_buf := mbox_buf.set 5 size
  let mbox_buf := mbox_buf.set 6 align
  let mbox_buf := mbox_buf.set 7 flags
  let mbox_buf := mbox_buf.set 8 0
  mbox_buf

/-- Embedding of `mem_alloc` (lines 95-112). -/
def mem_alloc (mbox_buf : List Nat) (fw : Firmware) (size align flags : Nat) :
    Nat × List Event :=
  let mbox_buf := mem_alloc_buf mbox_buf size align flags
  let r := fw mbox_buf
  if r.1 < 0 then (0, [Event.ioctl mbox_buf])
  else (r.2.getD 5 0, [Event.ioctl mbox_buf])

/-- Embedding of `mem_lock` (lines 117-133): the request buffer as handed to `ioctl`. -/
def mem_lock_buf (mbox_buf : List Nat) (handle : Nat) : List Nat :=
  let mbox_buf := mbox_buf.set 0 (8 * 4)
  let mbox_buf := mbox_buf.set 1 0
  let mbox_buf := mbox_buf.set 2 0x3000d
  let mbox_buf := mbox_buf.set 3 4
  let mbox_buf := mbox_buf.set 4 0
  let mbox_buf := mbox_buf.set 5 handle
  let mbox_buf := mbox_buf.set 6 0
  let mbox_buf := mbox_buf.set 7 0
  mbox_buf

/-- Embedding of `mem_lock` (lines 117-133). -/
def mem_lock (mbox_buf : List Nat) (fw : Firmware) (handle : Nat) : Nat × List Event :=
  let mbox_buf := mem_lock_buf mbox_buf handle
  let r := fw mbox_buf
  if r.1 < 0 then (0, [Event.ioctl mbox_buf])
  else (r.2.getD 5 0, [Event.ioctl mbox_buf])

/-- Embedding of `mem_free` (lines 136-150): the request buffer as handed to `ioctl`. -/
def mem_free_buf (mbox_buf : List Nat) (handle : Nat) : List Nat :=
  let mbox_buf := mbox_buf.set 0 (8 * 4)
  let mbox_buf := mbox_buf.set 1 0
  let mbox_buf := mbox_buf.set 2 0x3000f
  let mbox_buf := mbox_buf.set 3 4
  let mbox_buf := mbox_buf.set 4 0
  let mbox_buf := mbox_buf.set 5 handle
  let mbox_buf := mbox_buf.set 6 0
  let mbox_buf := mbox_buf.set 7 0
  mbox_buf

/-- Embedding of `mem_free` (lines 136-150).  The return code of `ioctl` only
selects a `perror`, so the firmware's answer does not appear. -/
def mem_free (mbox_buf : List Nat) (handle : Nat) : List Event :=
  [Event.ioctl (mem_free_buf mbox_buf handle)]

/-! ## The outside world -/

/-- Every answer the outside world gives to `main`.  The mailbox call sites are
numbered in program order: 0, 1, 2 are the three `mem_alloc` calls, 3, 4, 5 the
three `mem_lock` calls and 6, 7, 8 the three `mem_free` calls. -/
structure Env where
  /-- Result of `getuid()`. -/
  getuid : Nat
  /-- Whether `gpiod_chip_open_by_name` returned a non-NULL chip. -/
  chip : Bool
  /-- Whether `gpiod_chip_get_line(chip, 17)` returned a non-NULL line. -/
  line_memcpy : Bool
  /-- Whether `gpiod_chip_get_line(chip, 18)` returned a non-NULL line. -/
  line_dma : Bool
  /-- Return code of `gpiod_line_request_output(line_memcpy, ...)`. -/
  request_memcpy : Int
  /-- Return code of `gpiod_line_request_output(line_dma, ...)`. -/
  request_dma : Int
  /-- Return code of `stat("dma_src.txt", &st)`. -/
  stat : Int
  /-- The field `st.st_size`. -/
  st_size : Nat
  /-- Result of `open("/dev/mem", ...)`. -/
  mem_fd : Int
  /-- Result of `open("/dev/vcio", 0)`. -/
  mbox_fd : Int
  /-- Result of the register `mmap` (`none` is `MAP_FAILED`). -/
  dma_virt_addr : Option Nat
  /-- Indeterminate initial contents of `mbox_buf` at each mailbox call site. -/
  stack : Nat → List Nat
  /-- Answer of the mailbox `ioctl` at each mailbox call site. -/
  ioctl : Nat → Firmware
  /-- Result of the control-block `mmap`. -/
  cb_virt : Option Nat
  /-- Result of the source-block `mmap`. -/
  src_virt : Option Nat
  /-- Result of the destination-block `mmap`. -/
  dst_virt : Option Nat
  /-- Contents of the control block's memory when it is first mapped. -/
  cb_mem : dma_cb_t
  /-- Whether `fopen("dma_src.txt", "rb")` returned non-NULL. -/
  f_in : Bool
  /-- Result of `fread`. -/
  bytes_read : Nat
  /-- The value returned by the k-th volatile read of `dma_regs->cs`. -/
  cs : Nat → Nat
  /-- Whether `fopen("dma_dst.txt", "wb")` returned non-NULL. -/
  f_out : Bool

/-- Outcome of a run: `status` is the value `main` returns, or `none` when the
run is still spinning in the polling loop after `fuel` reads; `trace` is what
the program did up to that point. -/
structure Run where
  status : Option Int
  trace : List Event
  deriving DecidableEq, Repr

/-! ## The benchmark loop (lines 274-331) -/

/-- Lines 297-302: the six stores into `*cb_virt`.  `txfr_len` is a `uint32_t`
field assigned from the `size_t` value `content_len`. -/
def fill_cb (cb : dma_cb_t) (src_bus dst_bus content_len : Nat) : dma_cb_t :=
  let cb := { cb with ti := DMA_TI_SRC_INC ||| DMA_TI_DEST_INC }
  let cb := { cb with source_ad := src_bus }
  let cb := { cb with dest_ad := dst_bus }
  let cb := { cb with txfr_len := content_len % 2 ^ 32 }
  let cb := { cb with stride := 0 }
  let cb := { cb with next_cb := 0 }
  cb

/-- Lines 314-316: `while (dma_regs->cs & DMA_CS_ACTIVE) {}`.  `pos` counts the
reads of `cs` done so far; the result is the reads performed and, when the loop
exits within `fuel` reads, the new read count. -/
def poll (cs : Nat → Nat) : Nat → Nat → List Event × Option Nat
  | _, 0 => ([], none)
  | pos, fuel + 1 =>
    if cs pos &&& DMA_CS_ACTIVE ≠ 0 then
      let r := poll cs (pos + 1) fuel
      (Event.reg_read Reg.cs (cs pos) :: r.1, r.2)
    else
      ([Event.reg_read Reg.cs (cs pos)], some (pos + 1))

/-- Lines 275-330: one iteration of the benchmark loop.  Returns the events,
the control block as left in memory, and the new read count of `cs` (`none`
when the polling loop is still spinning after `fuel` reads). -/
def bench_run (cs : Nat → Nat) (cb_bus src_bus dst_bus content_len : Nat)
    (cb : dma_cb_t) (pos fuel : Nat) : List Event × dma_cb_t × Option Nat :=
  let cb := fill_cb cb src_bus dst_bus content_len
  let t :=
    [Event.memset_dst content_len,
     Event.gpiod_line_set_value PIN_MEMCPY 1,
     Event.memcpy_dst_src content_len,
     Event.gpiod_line_set_value PIN_MEMCPY 0,
     Event.memcmp_src_dst content_len,
     Event.memset_dst content_len,
     Event.cb_filled cb,
     Event.gpiod_line_set_value PIN_DMA 1,
     Event.reg_write Reg.cs DMA_CS_RESET,
     Event.usleep 10,
     Event.reg_write Reg.conblk_ad cb_bus,
     Event.reg_write Reg.cs DMA_CS_ACTIVE]
  let p := poll cs pos fuel
  match p.2 with
  | none => (t ++ p.1, cb, none)
  | some pos' =>
    (t ++ p.1 ++
      [Event.gpiod_line_set_value PIN_DMA 0,
       Event.memcmp_src_dst content_len,
       Event.usleep (50 * 1000)], cb, some pos')

/-- Line 274: `for (int i = 0; i < NUM_RUNS; i++)`, with `runs` iterations left. -/
def bench_loop (cs : Nat → Nat) (cb_bus src_bus dst_bus content_len : Nat) :
    Nat → dma_cb_t → Nat → Nat → List Event × Option (dma_cb_t × Nat)
  | 0, cb, pos, _ => ([], some (cb, pos))
  | runs + 1, cb, pos, fuel =>
    let r := bench_run cs cb_bus src_bus dst_bus content_len cb pos fuel
    match r.2.2 with
    | none => (r.1, none)
    | some pos' =>
      let rest := bench_loop cs cb_bus src_bus dst_bus content_len runs r.2.1 pos' fuel
      (r.1 ++ rest.1, rest.2)

/-! ## Cleanup labels (lines 362-382)

Each label falls through into the next one, down to `return 0`. -/

/-- Label `cleanup_gpio_init` (lines 378-379). -/
def cleanup_gpio_init : List Event :=
  [Event.gpiod_chip_close]

/-- Label `cleanup_gpio` (lines 375-377). -/
def cleanup_gpio : List Event :=
  [Event.gpiod_line_release PIN_MEMCPY, Event.gpiod_line_release PIN_DMA] ++ cleanup_gpio_init

/-- Label `cleanup_fds` (lines 372-374). -/
def cleanup_fds (env : Env) : List Event :=
  [Event.close env.mbox_fd, Event.close env.mem_fd] ++ cleanup_gpio

/-- Label `cleanup_dma_map` (lines 370-371). -/
def cleanup_dma_map (env : Env) : List Event :=
  [Event.munmap env.dma_virt_addr DMA_LEN] ++ cleanup_fds env

/-- Label `cleanup_handles` (lines 366-369). -/
def cleanup_handles (env : Env) (cb_handle src_handle dst_handle : Nat) : List Event :=
  (if cb_handle ≠ 0 then mem_free (env.stack 6) cb_handle else []) ++
  (if src_handle ≠ 0 then mem_free (env.stack 7) src_handle else []) ++
  (if dst_handle ≠ 0 then mem_free (env.stack 8) dst_handle else []) ++
  cleanup_dma_map env

/-- Label `cleanup_virt_maps` (lines 362-365). -/
def cleanup_virt_maps (env : Env) (alloc_len cb_handle src_handle dst_handle : Nat) :
    List Event :=
  [Event.munmap env.cb_virt PAGE_SIZE,
   Event.munmap env.src_virt alloc_len,
   Event.munmap env.dst_virt alloc_len] ++
  cleanup_handles env cb_handle src_handle dst_handle

/-! ## `main` (lines 160-383) -/

/-- Line 197: `size_t content_len = st.st_size`. -/
def content_len (w : Nat) (env : Env) : Nat :=
  env.st_size % 2 ^ w

/-- Line 227: `(content_len + PAGE_SIZE - 1) & ~(PAGE_SIZE - 1)` in `size_t`
arithmetic; `~(PAGE_SIZE - 1)` is the `int` -4096 converted to `size_t`. -/
def alloc_len (w : Nat) (content_len : Nat) : Nat :=
  ((content_len + PAGE_SIZE - 1) % 2 ^ w) &&& (2 ^ w - PAGE_SIZE)

/-- Lines 245-247: the `mmap` offset `bus & ~0xC0000000`. -/
def bus_to_phys (bus : Nat) : Nat :=
  bus &&& not32 0xC0000000

/-- Line 230: the `size_t` value `alloc_len` converted to the `uint32_t`
parameter `size` of `mem_alloc`. -/
def alloc_size (w : Nat) (content_len : Nat) : Nat :=
  alloc_len w content_len % 2 ^ 32

/-- Line 229: `cb_handle = mem_alloc(PAGE_SIZE, PAGE_SIZE, MEM_FLAG_L1_NONALLOCATING)`. -/
def cb_alloc (env : Env) : Nat × List Event :=
  mem_alloc (env.stack 0) (env.ioctl 0) PAGE_SIZE PAGE_SIZE MEM_FLAG_L1_NONALLOCATING

/-- Line 230: `src_handle = mem_alloc(alloc_len, PAGE_SIZE, MEM_FLAG_L1_NONALLOCATING)`. -/
def src_alloc (w : Nat) (env : Env) : Nat × List Event :=
  mem_alloc (env.stack 1) (env.ioctl 1) (alloc_size w (content_len w env)) PAGE_SIZE
    MEM_FLAG_L1_NONALLOCATING

/-- Line 231: `dst_handle = mem_alloc(alloc_len, PAGE_SIZE, MEM_FLAG_L1_NONALLOCATING)`. -/
def dst_alloc (w : Nat) (env : Env) : Nat × List Event :=
  mem_alloc (env.stack 2) (env.ioctl 2) (alloc_size w (content_len w env)) PAGE_SIZE
    MEM_FLAG_L1_NONALLOCATING

/-- Line 239: `cb_bus = mem_lock(cb_handle)`. -/
def cb_lock (env : Env) : Nat × List Event :=
  mem_lock (env.stack 3) (env.ioctl 3) (cb_alloc env).1

/-- Line 240: `src_bus = mem_lock(src_handle)`. -/
def src_lock (w : Nat) (env : Env) : Nat × List Event :=
  mem_lock (env.stack 4) (env.ioctl 4) (src_alloc w env).1

/-- Line 241: `dst_bus = mem_lock(dst_handle)`. -/
def dst_lock (w : Nat) (env : Env) : Nat × List Event :=
  mem_lock (env.stack 5) (env.ioctl 5) (dst_alloc w env).1

/-- Embedding of `main`; `w` is the width of `size_t` in bits and `fuel` bounds
the number of reads of `cs` in each polling loop. -/
def main (w : Nat) (env : Env) (fuel : Nat) : Run :=
  if env.getuid ≠ 0 then ⟨some 1, []⟩ else
  -- 1. GPIO
  let t := [Event.gpiod_chip_open_by_name]
  if env.chip = false then ⟨some 1, t⟩ else
  let t := t ++ [Event.gpiod_chip_get_line PIN_MEMCPY, Event.gpiod_chip_get_line PIN_DMA]
  if env.line_memcpy = false ∨ env.line_dma = false then
    ⟨some 0, t ++ cleanup_gpio_init⟩ else
  let t := t ++ [Event.gpiod_line_request_output PIN_MEMCPY] ++
    (if env.request_memcpy < 0 then [] else [Event.gpiod_line_request_output PIN_DMA])
  if env.request_memcpy < 0 ∨ env.request_dma < 0 then
    ⟨some 0, t ++ cleanup_gpio_init⟩ else
  -- 2. file size
  let t := t ++ [Event.stat]
  if env.stat ≠ 0 then ⟨some 0, t ++ cleanup_gpio⟩ else
  let content_len := content_len w env
  if content_len = 0 then ⟨some 0, t ++ cleanup_gpio⟩ else
  let t := t ++ [Event.open_dev_mem, Event.open_dev_vcio]
  if env.mem_fd < 0 ∨ env.mbox_fd < 0 then ⟨some 0, t ++ cleanup_gpio⟩ else
  -- 3a. register window
  let t := t ++ [Event.mmap DMA_LEN DMA_BASE env.dma_virt_addr]
  if env.dma_virt_addr = none then ⟨some 0, t ++ cleanup_fds env⟩ else
  -- 3b. allocation
  let alloc_len := alloc_len w content_len
  let cb_handle := (cb_alloc env).1
  let src_handle := (src_alloc w env).1
  let dst_handle := (dst_alloc w env).1
  let t := t ++ (cb_alloc env).2 ++ (src_alloc w env).2 ++ (dst_alloc w env).2
  if cb_handle = 0 ∨ src_handle = 0 ∨ dst_handle = 0 then
    ⟨some 0, t ++ cleanup_dma_map env⟩ else
  -- 3c. bus addresses
  let cb_bus := (cb_lock env).1
  let src_bus := (src_lock w env).1
  let dst_bus := (dst_lock w env).1
  let t := t ++ (cb_lock env).2 ++ (src_lock w env).2 ++ (dst_lock w env).2
  -- 3d. virtual addresses
  let t := t ++
    [Event.mmap PAGE_SIZE (bus_to_phys cb_bus) env.cb_virt,
     Event.mmap alloc_len (bus_to_phys src_bus) env.src_virt,
     Event.mmap alloc_len (bus_to_phys dst_bus) env.dst_virt]
  if env.src_virt = none ∨ env.dst_virt = none ∨ env.cb_virt = none then
    ⟨some 0, t ++ cleanup_handles env cb_handle src_handle dst_handle⟩ else
  -- 4. read the file
  let t := t ++ [Event.fopen_src]
  if env.f_in = false then
    ⟨some 0, t ++ cleanup_virt_maps env alloc_len cb_handle src_handle dst_handle⟩ else
  let t := t ++ [Event.fread content_len, Event.fclose_src]
  if env.bytes_read ≠ content_len then
    ⟨some 0, t ++ cleanup_virt_maps env alloc_len cb_handle src_handle dst_handle⟩ else
  -- 5. benchmark
  let b := bench_loop env.cs cb_bus src_bus dst_bus content_len NUM_RUNS env.cb_mem 0 fuel
  let t := t ++ b.1
  match b.2 with
  | none => ⟨none, t⟩
  | some _ =>
  -- 7. verification file
  let t := t ++ [Event.fopen_dst]
  if env.f_out = false then
    ⟨some 0, t ++ cleanup_virt_maps env alloc_len cb_handle src_handle dst_handle⟩ else
  let t := t ++ [Event.fwrite content_len, Event.fclose_dst]
  ⟨some 0, t ++ cleanup_virt_maps env alloc_len cb_handle src_handle dst_handle⟩

/-! ## Projections of a trace -/

/-- The buffers of the mailbox requests in a trace, in order. -/
def mailbox_requests (tr : List Event) : List (List Nat) :=
  tr.filterMap fun e => match e with
    | Event.ioctl mbox_buf => some mbox_buf
    | _ => none

/-- The handles passed to `mem_free` in a trace: word 5 of every request whose
tag (word 2) is free-memory. -/
def freed_handles (tr : List Event) : List Nat :=
  (mailbox_requests tr).filterMap fun mbox_buf =>
    if mbox_buf.getD 2 0 = 0x3000f then some (mbox_buf.getD 5 0) else none

/-- The offsets passed to `mmap` in a trace, in order. -/
def mmap_offsets (tr : List Event) : List Nat :=
  tr.filterMap fun e => match e with
    | Event.mmap _ offset _ => some offset
    | _ => none

/-- The addresses of the mappings created in a trace (successful `mmap` calls). -/
def mapped (tr : List Event) : List Nat :=
  tr.filterMap fun e => match e with
    | Event.mmap _ _ (some addr) => some addr
    | _ => none

/-- The addresses passed to `munmap` in a trace. -/
def unmapped (tr : List Event) : List (Option Nat) :=
  tr.filterMap fun e => match e with
    | Event.munmap addr _ => some addr
    | _ => none

/-- The contents of the control block after each fill in a trace. -/
def cb_fills (tr : List Event) : List dma_cb_t :=
  tr.filterMap fun e => match e with
    | Event.cb_filled cb => some cb
    | _ => none

/-- The register accesses in a trace, in order. -/
def reg_events (tr : List Event) : List Event :=
  tr.filter fun e => match e with
    | Event.reg_write _ _ => true
    | Event.reg_read _ _ => true
    | _ => false

/-! ## Concrete worlds -/

/-- A firmware answer that succeeds and writes `word5` into word 5 of the buffer. -/
def fwReply (word5 : Nat) : Firmware :=
  fun mbox_buf => (0, mbox_buf.set 5 word5)

/-- A failing mailbox `ioctl`: return code -1, buffer untouched. -/
def fwFail : Firmware :=
  fun mbox_buf => (-1, mbox_buf)

/-- A cooperative world: every call succeeds, the firmware hands out the
handles 5, 6, 7 and the bus addresses 0xC0100000, 0xC0200000, 0xC0300000, the
source file has `st_size` bytes and the engine shows the active bit for
`busy` reads of `cs` before it clears it. -/
def idealEnv (st_size busy : Nat) : Env where
  getuid := 0
  chip := true
  line_memcpy := true
  line_dma := true
  request_memcpy := 0
  request_dma := 0
  stat := 0
  st_size := st_size
  mem_fd := 3
  mbox_fd := 4
  dma_virt_addr := some 0x7000
  stack := fun _ => List.replicate 32 0xAAAAAAAA
  ioctl := fun k =>
    match k with
    | 0 => fwReply 5
    | 1 => fwReply 6
    | 2 => fwReply 7
    | 3 => fwReply 0xC0100000
    | 4 => fwReply 0xC0200000
    | 5 => fwReply 0xC0300000
    | _ => fwReply 0
  cb_virt := some 0x10000
  src_virt := some 0x20000
  dst_virt := some 0x30000
  cb_mem := ⟨0xDEAD, 0xDEAD, 0xDEAD, 0xDEAD, 0xDEAD, 0xDEAD, (0xBEEF, 0xCAFE)⟩
  f_in := true
  bytes_read := st_size
  cs := fun k => if k % (busy + 1) < busy then 1 else 0
  f_out := true

/-- The cooperative world, except that the firmware refuses the source block:
the second `mem_alloc` gets handle 0 while the first and third get 5 and 7. -/
def envAllocRefused : Env :=
  { idealEnv 5000 0 with
    ioctl := fun k => if k = 1 then fwReply 0 else (idealEnv 5000 0).ioctl k }

/-- The cooperative world, except that the `mmap` of the source block fails
while the control-block and destination mappings are created. -/
def envMapFailed : Env :=
  { idealEnv 5000 0 with src_virt := none }

/-- The cooperative world, except that the mailbox `ioctl` of
`mem_lock(cb_handle)` fails. -/
def envCbLockFail : Env :=
  { idealEnv 5000 0 with
    ioctl := fun k => if k = 3 then fwFail else (idealEnv 5000 0).ioctl k }

/-- The cooperative world, except that the mailbox `ioctl` of
`mem_lock(src_handle)` fails. -/
def envSrcLockFail : Env :=
  { idealEnv 5000 0 with
    ioctl := fun k => if k = 4 then fwFail else (idealEnv 5000 0).ioctl k }

/-! ## Classification of events -/

/-- The events an iteration of the benchmark loop can produce, with the
arguments they carry. -/
def loop_event (cb_bus src_bus dst_bus content_len : Nat) (rsvd : Nat × Nat) : Event → Prop
  | Event.memset_dst _ => True
  | Event.memcpy_dst_src _ => True
  | Event.memcmp_src_dst _ => True
  | Event.gpiod_line_set_value _ _ => True
  | Event.usleep _ => True
  | Event.reg_write Reg.cs value => value = DMA_CS_RESET ∨ value = DMA_CS_ACTIVE
  | Event.reg_write Reg.conblk_ad value => value = cb_bus
  | Event.reg_read Reg.cs _ => True
  | Event.cb_filled cb =>
      cb = ⟨0x110, src_bus, dst_bus, content_len % 2 ^ 32, 0, 0, rsvd⟩
  | _ => False

/-- The arguments of the control-block fills, `mmap` calls and register writes
that a run of `main` in the world `env` can contain. -/
def main_event (w : Nat) (env : Env) : Event → Prop
  | Event.cb_filled cb =>
      cb = ⟨0x110, (src_lock w env).1, (dst_lock w env).1, content_len w env % 2 ^ 32, 0, 0,
        env.cb_mem.rsvd⟩
  | Event.mmap _ offset _ =>
      offset = DMA_BASE ∨ offset = bus_to_phys (cb_lock env).1
        ∨ offset = bus_to_phys (src_lock w env).1 ∨ offset = bus_to_phys (dst_lock w env).1
  | Event.reg_write Reg.cs value => value = DMA_CS_RESET ∨ value = DMA_CS_ACTIVE
  | Event.reg_write Reg.conblk_ad value => value = (cb_lock env).1
  | Event.reg_read Reg.conblk_ad _ => False
  | _ => True

/-! ## Theorems -/

/-! ## Mailbox requests -/

/-- A buffer of at least nine words, spelled out. -/
theorem exists_nine_words (buf : List Nat) (h : 9 ≤ buf.length) :
    ∃ a0 a1 a2 a3 a4 a5 a6 a7 a8 rest,
      buf = a0 :: a1 :: a2 :: a3 :: a4 :: a5 :: a6 :: a7 :: a8 :: rest := by
  rcases buf with _ | ⟨a0, buf⟩
  · simp at h
  rcases buf with _ | ⟨a1, buf⟩
  · simp at h
  rcases buf with _ | ⟨a2, buf⟩
  · simp at h
  rcases buf with _ | ⟨a3, buf⟩
  · simp at h
  rcases buf with _ | ⟨a4, buf⟩
  · simp at h
  rcases buf with _ | ⟨a5, buf⟩
  · simp at h
  rcases buf with _ | ⟨a6, buf⟩
  · simp at h
  rcases buf with _ | ⟨a7, buf⟩
  · simp at h
  rcases buf with _ | ⟨a8, rest⟩
  · simp at h
  exact ⟨a0, a1, a2, a3, a4, a5, a6, a7, a8, rest, rfl⟩

/-- The allocate request, word by word: nine words written, the rest of the
array untouched. -/
theorem mem_alloc_buf_eq (a0 a1 a2 a3 a4 a5 a6 a7 a8 : Nat) (rest : List Nat)
    (size align flags : Nat) :
    mem_alloc_buf (a0 :: a1 :: a2 :: a3 :: a4 :: a5 :: a6 :: a7 :: a8 :: rest) size align flags
      = 36 :: 0 :: 0x3000c :: 12 :: 0 :: size :: align :: flags :: 0 :: rest := by
  simp [mem_alloc_buf, List.set]

/-- The lock request, word by word: eight words written, the rest untouched. -/
theorem mem_lock_buf_eq (a0 a1 a2 a3 a4 a5 a6 a7 : Nat) (rest : List Nat) (handle : Nat) :
    mem_lock_buf (a0 :: a1 :: a2 :: a3 :: a4 :: a5 :: a6 :: a7 :: rest) handle
      = 32 :: 0 :: 0x3000d :: 4 :: 0 :: handle :: 0 :: 0 :: rest := by
  simp [mem_lock_buf, List.set]

/-- The free request, word by word: eight words written, the rest untouched. -/
theorem mem_free_buf_eq (a0 a1 a2 a3 a4 a5 a6 a7 : Nat) (rest : List Nat) (handle : Nat) :
    mem_free_buf (a0 :: a1 :: a2 :: a3 :: a4 :: a5 :: a6 :: a7 :: rest) handle
      = 32 :: 0 :: 0x3000f :: 4 :: 0 :: handle :: 0 :: 0 :: rest := by
  simp [mem_free_buf, List.set]

/-- C6: the three mailbox requests have the fixed wire format.  For a 32-word
`mbox_buf` with any initial contents: `mem_alloc` performs exactly one `ioctl`,
on a buffer whose first nine words are `[36, 0, 0x3000c, 12, 0, size, align,
flags, 0]` (the remaining words are not written); `mem_lock` and `mem_free`
perform exactly one `ioctl` on a buffer whose first eight words are
`[32, 0, tag, 4, 0, handle, 0, 0]` with tag `0x3000d` resp. `0x3000f`; word 0
is four times the number of words written; the word at index
`5 + tag_buffer_size / 4` is 0; and whenever the `ioctl` does not fail,
`mem_alloc` and `mem_lock` return word 5 of the buffer the firmware left. -/
theorem C6_mailbox_wire_format (mbox_buf : List Nat) (hlen : mbox_buf.length = 32)
    (fw : Firmware) (size align flags handle : Nat) :
    ((mem_alloc mbox_buf fw size align flags).2
        = [Event.ioctl (mem_alloc_buf mbox_buf size align flags)]
      ∧ (mem_alloc_buf mbox_buf size align flags).take 9
        = [36, 0, 0x3000c, 12, 0, size, align, flags, 0]
      ∧ (mem_alloc_buf mbox_buf size align flags).drop 9 = mbox_buf.drop 9
      ∧ (mem_alloc_buf mbox_buf size align flags).getD 0 0 = 4 * 9
      ∧ (mem_alloc_buf mbox_buf size align flags).getD
          (5 + (mem_alloc_buf mbox_buf size align flags).getD 3 0 / 4) 1 = 0
      ∧ (¬ (fw (mem_alloc_buf mbox_buf size align flags)).1 < 0 →
          (mem_alloc mbox_buf fw size align flags).1
            = (fw (mem_alloc_buf mbox_buf size align flags)).2.getD 5 0))
    ∧ ((mem_lock mbox_buf fw handle).2 = [Event.ioctl (mem_lock_buf mbox_buf handle)]
      ∧ (mem_lock_buf mbox_buf handle).take 8 = [32, 0, 0x3000d, 4, 0, handle, 0, 0]
      ∧ (mem_lock_buf mbox_buf handle).drop 8 = mbox_buf.drop 8
      ∧ (mem_lock_buf mbox_buf handle).getD 0 0 = 4 * 8
      ∧ (mem_lock_buf mbox_buf handle).getD
          (5 + (mem_lock_buf mbox_buf handle).getD 3 0 / 4) 1 = 0
      ∧ (¬ (fw (mem_lock_buf mbox_buf handle)).1 < 0 →
          (mem_lock mbox_buf fw handle).1 = (fw (mem_lock_buf mbox_buf handle)).2.getD 5 0))
    ∧ ((mem_free mbox_buf handle) = [Event.ioctl (mem_free_buf mbox_buf handle)]
      ∧ (mem_free_buf mbox_buf handle).take 8 = [32, 0, 0x3000f, 4, 0, handle, 0, 0]
      ∧ (mem_free_buf mbox_buf handle).drop 8 = mbox_buf.drop 8
      ∧ (mem_free_buf mbox_buf handle).getD 0 0 = 4 * 8
      ∧ (mem_free_buf mbox_buf handle).getD
          (5 + (mem_free_buf mbox_buf handle).getD 3 0 / 4) 1 = 0) := by
  obtain ⟨a0, a1, a2, a3, a4, a5, a6, a7, a8, rest, rfl⟩ :=
    exists_nine_words mbox_buf (by omega)
  refine ⟨⟨?_, ?_, ?_, ?_, ?_, ?_⟩, ⟨?_, ?_, ?_, ?_, ?_, ?_⟩, ⟨?_, ?_, ?_, ?_, ?_⟩⟩
  · unfold mem_alloc; dsimp only; split <;> rfl
  · rw [mem_alloc_buf_eq]; rfl
  · rw [mem_alloc_buf_eq]; rfl
  · rw [mem_alloc_buf_eq]; rfl
  · rw [mem_alloc_buf_eq]; simp
  · intro h; unfold mem_alloc; simp [h]
  · unfold mem_lock; dsimp only; split <;> rfl
  · rw [mem_lock_buf_eq]; rfl
  · rw [mem_lock_buf_eq]; rfl
  · rw [mem_lock_buf_eq]; rfl
  · rw [mem_lock_buf_eq]; simp
  · intro h; unfold mem_lock; simp [h]
  · rfl
  · rw [mem_free_buf_eq]; rfl
  · rw [mem_free_buf_eq]; rfl
  · rw [mem_free_buf_eq]; rfl
  · rw [mem_free_buf_eq]; simp

/-- C6, at a concrete buffer and firmware: an array of 32 zero words and a
firmware that answers with 0x1234 in word 5. -/
theorem C6_mailbox_wire_format_witness :
    (List.replicate 32 0).length = 32
    ∧ (mem_alloc_buf (List.replicate 32 0) 8192 4096 12).take 9
        = [36, 0, 0x3000c, 12, 0, 8192, 4096, 12, 0]
    ∧ (mem_alloc (List.replicate 32 0) (fwReply 0x1234) 8192 4096 12).1 = 0x1234 := by
  have h := C6_mailbox_wire_format (List.replicate 32 0) (by decide) (fwReply 0x1234)
    8192 4096 12 5
  refine ⟨by decide, h.1.2.1, ?_⟩
  rw [h.1.2.2.2.2.2 (by decide)]
  decide

/-- What `mem_alloc` returns, in terms of the answer of the `ioctl`. -/
theorem mem_alloc_result (mbox_buf : List Nat) (fw : Firmware) (size align flags : Nat) :
    (mem_alloc mbox_buf fw size align flags).1
      = if (fw (mem_alloc_buf mbox_buf size align flags)).1 < 0 then 0
        else (fw (mem_alloc_buf mbox_buf size align flags)).2.getD 5 0 := by
  unfold mem_alloc; dsimp only; split <;> rfl

/-- What `mem_lock` returns, in terms of the answer of the `ioctl`. -/
theorem mem_lock_result (mbox_buf : List Nat) (fw : Firmware) (handle : Nat) :
    (mem_lock mbox_buf fw handle).1
      = if (fw (mem_lock_buf mbox_buf handle)).1 < 0 then 0
        else (fw (mem_lock_buf mbox_buf handle)).2.getD 5 0 := by
  unfold mem_lock; dsimp only; split <;> rfl

/-- The events of `mem_alloc`: one `ioctl`, whatever the firmware answers. -/
theorem mem_alloc_events (mbox_buf : List Nat) (fw : Firmware) (size align flags : Nat) :
    (mem_alloc mbox_buf fw size align flags).2
      = [Event.ioctl (mem_alloc_buf mbox_buf size align flags)] := by
  unfold mem_alloc; dsimp only; split <;> rfl

/-- The events of `mem_lock`: one `ioctl`, whatever the firmware answers. -/
theorem mem_lock_events (mbox_buf : List Nat) (fw : Firmware) (handle : Nat) :
    (mem_lock mbox_buf fw handle).2 = [Event.ioctl (mem_lock_buf mbox_buf handle)] := by
  unfold mem_lock; dsimp only; split <;> rfl

/-- With an empty source file `main` stops at line 198, before `/dev/vcio` is
opened: no mailbox request is made. -/
theorem main_empty_source_no_mailbox (w : Nat) (env : Env) (fuel : Nat)
    (h : content_len w env = 0) :
    mailbox_requests (main w env fuel).trace = [] := by
  by_cases h1 : env.getuid ≠ 0
  · simp [main, h1, mailbox_requests]
  by_cases h2 : env.chip = false
  · simp [main, h1, h2, mailbox_requests]
  by_cases h3 : env.line_memcpy = false ∨ env.line_dma = false
  · simp [main, h1, h2, h3, mailbox_requests, cleanup_gpio_init]
  by_cases h4 : env.request_memcpy < 0 ∨ env.request_dma < 0
  · simp [main, h1, h2, h3, h4, mailbox_requests, cleanup_gpio_init]
  by_cases h5 : env.stat ≠ 0
  · simp [main, h1, h2, h3, h4, h5, mailbox_requests, cleanup_gpio_init, cleanup_gpio]
  simp [main, h1, h2, h3, h4, h5, h, mailbox_requests, cleanup_gpio_init, cleanup_gpio]

/-- C4, refuted as stated: with a firmware that answers the request with handle
7, `mem_alloc(0, 4096, 12)` performs the mailbox `ioctl` and returns 7. -/
theorem C4_counterexample :
    (mem_alloc (List.replicate 32 0) (fwReply 7) 0 4096 12).1 = 7
    ∧ (mem_alloc (List.replicate 32 0) (fwReply 7) 0 4096 12).2
        = [Event.ioctl ([36, 0, 0x3000c, 12, 0, 0, 4096, 12, 0] ++ List.replicate 23 0)] := by
  decide

/-- C4, amended: `mem_alloc` does not look at `size`.  `mem_alloc(0, align,
flags)` performs exactly one mailbox `ioctl`, whose request carries size 0, and
returns 0 when that `ioctl` fails and word 5 of the firmware's answer
otherwise.  The empty payload is rejected by `main`: when the source file has
length 0, `main` makes no mailbox request at all. -/
theorem C4_alloc_zero_amended (mbox_buf : List Nat) (hlen : mbox_buf.length = 32)
    (fw : Firmware) (align flags : Nat) (w : Nat) (env : Env) (fuel : Nat)
    (hempty : content_len w env = 0) :
    (mem_alloc mbox_buf fw 0 align flags).2
        = [Event.ioctl (mem_alloc_buf mbox_buf 0 align flags)]
    ∧ (mem_alloc_buf mbox_buf 0 align flags).take 9
        = [36, 0, 0x3000c, 12, 0, 0, align, flags, 0]
    ∧ (mem_alloc mbox_buf fw 0 align flags).1
        = (if (fw (mem_alloc_buf mbox_buf 0 align flags)).1 < 0 then 0
           else (fw (mem_alloc_buf mbox_buf 0 align flags)).2.getD 5 0)
    ∧ mailbox_requests (main w env fuel).trace = [] := by
  obtain ⟨a0, a1, a2, a3, a4, a5, a6, a7, a8, rest, rfl⟩ :=
    exists_nine_words mbox_buf (by omega)
  refine ⟨mem_alloc_events _ _ _ _ _, ?_, mem_alloc_result _ _ _ _ _,
    main_empty_source_no_mailbox w env fuel hempty⟩
  rw [mem_alloc_buf_eq]; rfl

/-- C4 amended, at a concrete input: a failing `ioctl` gives 0, and the
cooperative world with an empty source file sees no mailbox request. -/
theorem C4_alloc_zero_amended_witness :
    (List.replicate 32 0).length = 32
    ∧ content_len 64 (idealEnv 0 0) = 0
    ∧ (mem_alloc (List.replicate 32 0) fwFail 0 4096 12).1 = 0
    ∧ mailbox_requests (main 64 (idealEnv 0 0) 1).trace = [] := by
  have h := C4_alloc_zero_amended (List.replicate 32 0) (by decide) fwFail 4096 12
    64 (idealEnv 0 0) 1 (by decide)
  refine ⟨by decide, by decide, ?_, h.2.2.2⟩
  rw [h.2.2.1]
  decide

/-- C5, refuted as stated: with a firmware that answers the lock request with
0xC0100000 in word 5, `mem_lock(0)` returns 0xC0100000, not the failure value. -/
theorem C5_counterexample :
    (mem_lock (List.replicate 32 0) (fwReply 0xC0100000) 0).1 = 0xC0100000
    ∧ (mem_lock (List.replicate 32 0) (fwReply 0xC0100000) 0).1 ≠ 0 := by
  decide

/-- C5, amended: `mem_lock` does not look at the handle.  `mem_lock(0)` sends
the lock request with handle word 0 and returns 0 exactly when the `ioctl`
fails or word 5 of the firmware's answer is 0; in particular it returns 0 when
the firmware leaves the request untouched.  Otherwise it returns the answer's
word 5. -/
theorem C5_lock_zero_amended (mbox_buf : List Nat) (hlen : mbox_buf.length = 32)
    (fw : Firmware) :
    (mem_lock mbox_buf fw 0).2 = [Event.ioctl (mem_lock_buf mbox_buf 0)]
    ∧ (mem_lock_buf mbox_buf 0).take 8 = [32, 0, 0x3000d, 4, 0, 0, 0, 0]
    ∧ ((mem_lock mbox_buf fw 0).1 = 0 ↔
        ((fw (mem_lock_buf mbox_buf 0)).1 < 0 ∨ (fw (mem_lock_buf mbox_buf 0)).2.getD 5 0 = 0))
    ∧ (¬ (fw (mem_lock_buf mbox_buf 0)).1 < 0 →
        (mem_lock mbox_buf fw 0).1 = (fw (mem_lock_buf mbox_buf 0)).2.getD 5 0)
    ∧ ((fw (mem_lock_buf mbox_buf 0)).2 = mem_lock_buf mbox_buf 0 →
        (mem_lock mbox_buf fw 0).1 = 0) := by
  obtain ⟨a0, a1, a2, a3, a4, a5, a6, a7, a8, rest, rfl⟩ :=
    exists_nine_words mbox_buf (by omega)
  refine ⟨mem_lock_events _ _ _, ?_, ?_, ?_, ?_⟩
  · rw [mem_lock_buf_eq]; rfl
  · rw [mem_lock_result]
    by_cases hrc : (fw (mem_lock_buf (a0 :: a1 :: a2 :: a3 :: a4 :: a5 :: a6 :: a7 :: a8 :: rest) 0)).1 < 0
    · simp [hrc]
    · simp [hrc]
  · intro hrc
    rw [mem_lock_result, if_neg hrc]
  · intro hsame
    rw [mem_lock_result, hsame, mem_lock_buf_eq]
    split <;> rfl

/-- C5 amended, at a concrete input: an array of 32 zero words and a firmware
whose `ioctl` fails. -/
theorem C5_lock_zero_amended_witness :
    (List.replicate 32 0).length = 32 ∧ (mem_lock (List.replicate 32 0) fwFail 0).1 = 0 :=
  ⟨by decide,
   (C5_lock_zero_amended (List.replicate 32 0) (by decide) fwFail).2.2.2.2 (by decide)⟩

/-! ## The benchmark loop -/

/-- The six stores of lines 297-302, as one record. -/
theorem fill_cb_eq (cb : dma_cb_t) (src_bus dst_bus content_len : Nat) :
    fill_cb cb src_bus dst_bus content_len
      = ⟨0x110, src_bus, dst_bus, content_len % 2 ^ 32, 0, 0, cb.rsvd⟩ := by
  rfl

/-- The polling loop only reads `cs`. -/
theorem poll_events (cs : Nat → Nat) (cb_bus s d L : Nat) (rsvd : Nat × Nat) (fuel : Nat) :
    ∀ pos, ∀ e ∈ (poll cs pos fuel).1, loop_event cb_bus s d L rsvd e := by
  induction fuel with
  | zero => intro pos e he; simp [poll] at he
  | succ n ih =>
    intro pos e he
    unfold poll at he
    split at he
    · simp only [List.mem_cons] at he
      rcases he with rfl | he
      · trivial
      · exact ih _ _ he
    · simp only [List.mem_singleton] at he
      subst he; trivial

/-- Every event of one iteration is a loop event with the iteration's arguments. -/
theorem bench_run_events (cs : Nat → Nat) (cb_bus s d L : Nat) (cb : dma_cb_t)
    (pos fuel : Nat) :
    ∀ e ∈ (bench_run cs cb_bus s d L cb pos fuel).1, loop_event cb_bus s d L cb.rsvd e := by
  intro e he
  unfold bench_run at he
  dsimp only at he
  split at he
  · simp only [List.mem_append, List.mem_cons, List.mem_singleton, List.not_mem_nil,
      or_false] at he
    rcases he with (he | he | he | he | he | he | he | he | he | he | he | he) | he
    all_goals first
      | exact poll_events cs cb_bus s d L cb.rsvd fuel pos e he
      | (subst he; simp [loop_event, fill_cb_eq])
  · simp only [List.mem_append, List.mem_cons, List.mem_singleton, List.not_mem_nil,
      or_false] at he
    rcases he with ((he | he | he | he | he | he | he | he | he | he | he | he) | he) |
      (he | he | he)
    all_goals first
      | exact poll_events cs cb_bus s d L cb.rsvd fuel pos e he
      | (subst he; simp [loop_event, fill_cb_eq])

/-- The control block left in memory by one iteration. -/
theorem bench_run_cb (cs : Nat → Nat) (cb_bus s d L : Nat) (cb : dma_cb_t) (pos fuel : Nat) :
    (bench_run cs cb_bus s d L cb pos fuel).2.1 = fill_cb cb s d L := by
  unfold bench_run; dsimp only; split <;> rfl

/-- Every event of the benchmark loop is a loop event with the loop's arguments. -/
theorem bench_loop_events (cs : Nat → Nat) (cb_bus s d L : Nat) (fuel runs : Nat) :
    ∀ (cb : dma_cb_t) (pos : Nat),
      ∀ e ∈ (bench_loop cs cb_bus s d L runs cb pos fuel).1,
        loop_event cb_bus s d L cb.rsvd e := by
  induction runs with
  | zero => intro cb pos e he; simp [bench_loop] at he
  | succ n ih =>
    intro cb pos e he
    unfold bench_loop at he
    dsimp only at he
    split at he
    · exact bench_run_events cs cb_bus s d L cb pos fuel e he
    · rcases List.mem_append.1 he with he | he
      · exact bench_run_events cs cb_bus s d L cb pos fuel e he
      · have := ih _ _ e he
        rwa [bench_run_cb, fill_cb_eq] at this

/-! ## Every event of `main` -/

theorem main_event_of_loop_event (w : Nat) (env : Env) (e : Event)
    (h : loop_event (cb_lock env).1 (src_lock w env).1 (dst_lock w env).1 (content_len w env)
      env.cb_mem.rsvd e) :
    main_event w env e := by
  cases e
  case reg_write r v => cases r <;> simpa [loop_event, main_event] using h
  case reg_read r v => cases r <;> simp_all [loop_event, main_event]
  all_goals simp_all [loop_event, main_event]

theorem cb_alloc_events (w : Nat) (env : Env) :
    ∀ e ∈ (cb_alloc env).2, main_event w env e := by
  intro e he
  rw [cb_alloc, mem_alloc_events] at he
  simp only [List.mem_singleton] at he
  subst he; trivial

theorem src_alloc_events (w : Nat) (env : Env) :
    ∀ e ∈ (src_alloc w env).2, main_event w env e := by
  intro e he
  rw [src_alloc, mem_alloc_events] at he
  simp only [List.mem_singleton] at he
  subst he; trivial

theorem dst_alloc_events (w : Nat) (env : Env) :
    ∀ e ∈ (dst_alloc w env).2, main_event w env e := by
  intro e he
  rw [dst_alloc, mem_alloc_events] at he
  simp only [List.mem_singleton] at he
  subst he; trivial

theorem cb_lock_events (w : Nat) (env : Env) :
    ∀ e ∈ (cb_lock env).2, main_event w env e := by
  intro e he
  rw [cb_lock, mem_lock_events] at he
  simp only [List.mem_singleton] at he
  subst he; trivial

theorem src_lock_events (w : Nat) (env : Env) :
    ∀ e ∈ (src_lock w env).2, main_event w env e := by
  intro e he
  rw [src_lock, mem_lock_events] at he
  simp only [List.mem_singleton] at he
  subst he; trivial

theorem dst_lock_events (w : Nat) (env : Env) :
    ∀ e ∈ (dst_lock w env).2, main_event w env e := by
  intro e he
  rw [dst_lock, mem_lock_events] at he
  simp only [List.mem_singleton] at he
  subst he; trivial

theorem cleanup_fds_events (w : Nat) (env : Env) :
    ∀ e ∈ cleanup_fds env, main_event w env e := by
  intro e he
  simp [cleanup_fds, cleanup_gpio, cleanup_gpio_init] at he
  rcases he with rfl | rfl | rfl | rfl | rfl <;> trivial

theorem cleanup_dma_map_events (w : Nat) (env : Env) :
    ∀ e ∈ cleanup_dma_map env, main_event w env e := by
  intro e he
  simp only [cleanup_dma_map, List.mem_append, List.mem_singleton] at he
  rcases he with rfl | he
  · trivial
  · exact cleanup_fds_events w env e he

theorem cleanup_handles_events (w : Nat) (env : Env) (a b c : Nat) :
    ∀ e ∈ cleanup_handles env a b c, main_event w env e := by
  intro e he
  simp only [cleanup_handles, List.mem_append] at he
  rcases he with ((he | he) | he) | he
  · split at he
    · simp only [mem_free, List.mem_singleton] at he; subst he; trivial
    · simp at he
  · split at he
    · simp only [mem_free, List.mem_singleton] at he; subst he; trivial
    · simp at he
  · split at he
    · simp only [mem_free, List.mem_singleton] at he; subst he; trivial
    · simp at he
  · exact cleanup_dma_map_events w env e he

theorem cleanup_virt_maps_events (w : Nat) (env : Env) (n a b c : Nat) :
    ∀ e ∈ cleanup_virt_maps env n a b c, main_event w env e := by
  intro e he
  simp only [cleanup_virt_maps, List.mem_append, List.mem_cons, List.mem_singleton,
    List.not_mem_nil, or_false] at he
  rcases he with (rfl | rfl | rfl) | he
  · trivial
  · trivial
  · trivial
  · exact cleanup_handles_events w env a b c e he

/-- On every path through `main`, and also in a run that is still polling,
every event carries the arguments `main_event` lists. -/
theorem main_events (w : Nat) (env : Env) (fuel : Nat) :
    ∀ e ∈ (main w env fuel).trace, main_event w env e := by
  have hA := cb_alloc_events w env
  have hB := src_alloc_events w env
  have hC := dst_alloc_events w env
  have hD := cb_lock_events w env
  have hE := src_lock_events w env
  have hF := dst_lock_events w env
  have hG := cleanup_fds_events w env
  have hH := cleanup_dma_map_events w env
  have hI := cleanup_handles_events w env
  have hJ := cleanup_virt_maps_events w env
  have hK := fun e he => main_event_of_loop_event w env e
    (bench_loop_events env.cs (cb_lock env).1 (src_lock w env).1 (dst_lock w env).1
      (content_len w env) fuel NUM_RUNS env.cb_mem 0 e he)
  intro e he
  by_cases h1 : env.getuid ≠ 0
  · simp [main, h1] at he
  by_cases h2 : env.chip = false
  · simp [main, h1, h2] at he
    subst he; trivial
  by_cases h3 : env.line_memcpy = false ∨ env.line_dma = false
  · simp [main, h1, h2, h3, cleanup_gpio_init] at he
    casesm* _ ∨ _, _ ∧ _ <;> (subst_vars; trivial)
  by_cases h4 : env.request_memcpy < 0 ∨ env.request_dma < 0
  · simp [main, h1, h2, h3, h4, cleanup_gpio_init] at he
    casesm* _ ∨ _, _ ∧ _ <;> (subst_vars; trivial)
  by_cases h5 : env.stat ≠ 0
  · simp [main, h1, h2, h3, h4, h5, cleanup_gpio_init, cleanup_gpio] at he
    casesm* _ ∨ _, _ ∧ _ <;> (subst_vars; trivial)
  by_cases h6 : content_len w env = 0
  · simp [main, h1, h2, h3, h4, h5, h6, cleanup_gpio_init, cleanup_gpio] at he
    casesm* _ ∨ _, _ ∧ _ <;> (subst_vars; trivial)
  by_cases h7 : env.mem_fd < 0 ∨ env.mbox_fd < 0
  · simp [main, h1, h2, h3, h4, h5, h6, h7, cleanup_gpio_init, cleanup_gpio] at he
    casesm* _ ∨ _, _ ∧ _ <;> (subst_vars; trivial)
  by_cases h8 : env.dma_virt_addr = none
  · simp [main, h1, h2, h3, h4, h5, h6, h7, h8] at he
    casesm* _ ∨ _, _ ∧ _
    all_goals first
      | exact hA _ (by assumption)
      | exact hB _ (by assumption)
      | exact hC _ (by assumption)
      | exact hD _ (by assumption)
      | exact hE _ (by assumption)
      | exact hF _ (by assumption)
      | exact hG _ (by assumption)
      | exact hH _ (by assumption)
      | exact hI _ _ _ _ (by assumption)
      | exact hJ _ _ _ _ _ (by assumption)
      | exact hK _ (by assumption)
      | (subst_vars; simp [main_event])
  by_cases h9 : (cb_alloc env).1 = 0 ∨ (src_alloc w env).1 = 0 ∨ (dst_alloc w env).1 = 0
  · simp [main, h1, h2, h3, h4, h5, h6, h7, h8, h9] at he
    casesm* _ ∨ _, _ ∧ _
    all_goals first
      | exact hA _ (by assumption)
      | exact hB _ (by assumption)
      | exact hC _ (by assumption)
      | exact hD _ (by assumption)
      | exact hE _ (by assumption)
      | exact hF _ (by assumption)
      | exact hG _ (by assumption)
      | exact hH _ (by assumption)
      | exact hI _ _ _ _ (by assumption)
      | exact hJ _ _ _ _ _ (by assumption)
      | exact hK _ (by assumption)
      | (subst_vars; simp [main_event])
  by_cases h10 : env.src_virt = none ∨ env.dst_virt = none ∨ env.cb_virt = none
  · simp [main, h1, h2, h3, h4, h5, h6, h7, h8, h9, h10] at he
    casesm* _ ∨ _, _ ∧ _
    all_goals first
      | exact hA _ (by assumption)
      | exact hB _ (by assumption)
      | exact hC _ (by assumption)
      | exact hD _ (by assumption)
      | exact hE _ (by assumption)
      | exact hF _ (by assumption)
      | exact hG _ (by assumption)
      | exact hH _ (by assumption)
      | exact hI _ _ _ _ (by assumption)
      | exact hJ _ _ _ _ _ (by assumption)
      | exact hK _ (by assumption)
      | (subst_vars; simp [main_event])
  by_cases h11 : env.f_in = false
  · simp [main, h1, h2, h3, h4, h5, h6, h7, h8, h9, h10, h11] at he
    casesm* _ ∨ _, _ ∧ _
    all_goals first
      | exact hA _ (by assumption)
      | exact hB _ (by assumption)
      | exact hC _ (by assumption)
      | exact hD _ (by assumption)
      | exact hE _ (by assumption)
      | exact hF _ (by assumption)
      | exact hG _ (by assumption)
      | exact hH _ (by assumption)
      | exact hI _ _ _ _ (by assumption)
      | exact hJ _ _ _ _ _ (by assumption)
      | exact hK _ (by assumption)
      | (subst_vars; simp [main_event])
  by_cases h12 : env.bytes_read ≠ content_len w env
  · simp [main, h1, h2, h3, h4, h5, h6, h7, h8, h9, h10, h11, h12] at he
    casesm* _ ∨ _, _ ∧ _
    all_goals first
      | exact hA _ (by assumption)
      | exact hB _ (by assumption)
      | exact hC _ (by assumption)
      | exact hD _ (by assumption)
      | exact hE _ (by assumption)
      | exact hF _ (by assumption)
      | exact hG _ (by assumption)
      | exact hH _ (by assumption)
      | exact hI _ _ _ _ (by assumption)
      | exact hJ _ _ _ _ _ (by assumption)
      | exact hK _ (by assumption)
      | (subst_vars; simp [main_event])
  cases hb : (bench_loop env.cs (cb_lock env).1 (src_lock w env).1 (dst_lock w env).1
      (content_len w env) NUM_RUNS env.cb_mem 0 fuel).2 with
  | none =>
    simp [main, h1, h2, h3, h4, h5, h6, h7, h8, h9, h10, h11, h12, hb] at he
    casesm* _ ∨ _, _ ∧ _
    all_goals first
      | exact hA _ (by assumption)
      | exact hB _ (by assumption)
      | exact hC _ (by assumption)
      | exact hD _ (by assumption)
      | exact hE _ (by assumption)
      | exact hF _ (by assumption)
      | exact hG _ (by assumption)
      | exact hH _ (by assumption)
      | exact hI _ _ _ _ (by assumption)
      | exact hJ _ _ _ _ _ (by assumption)
      | exact hK _ (by assumption)
      | (subst_vars; simp [main_event])
  | some val =>
    by_cases h13 : env.f_out = false
    · simp [main, h1, h2, h3, h4, h5, h6, h7, h8, h9, h10, h11, h12, hb, h13] at he
      casesm* _ ∨ _, _ ∧ _
      all_goals first
        | exact hA _ (by assumption)
        | exact hB _ (by assumption)
        | exact hC _ (by assumption)
        | exact hD _ (by assumption)
        | exact hE _ (by assumption)
        | exact hF _ (by assumption)
        | exact hG _ (by assumption)
        | exact hH _ (by assumption)
        | exact hI _ _ _ _ (by assumption)
        | exact hJ _ _ _ _ _ (by assumption)
        | exact hK _ (by assumption)
        | (subst_vars; simp [main_event])
    · simp [main, h1, h2, h3, h4, h5, h6, h7, h8, h9, h10, h11, h12, hb, h13] at he
      casesm* _ ∨ _, _ ∧ _
      all_goals first
        | exact hA _ (by assumption)
        | exact hB _ (by assumption)
        | exact hC _ (by assumption)
        | exact hD _ (by assumption)
        | exact hE _ (by assumption)
        | exact hF _ (by assumption)
        | exact hG _ (by assumption)
        | exact hH _ (by assumption)
        | exact hI _ _ _ _ (by assumption)
        | exact hJ _ _ _ _ _ (by assumption)
        | exact hK _ (by assumption)
        | (subst_vars; simp [main_event])

/-- Apart from the two early `return 1` (not root, GPIO chip not opened), every
path through `main` that returns, returns 0. -/
theorem main_status (w : Nat) (env : Env) (fuel : Nat)
    (hroot : env.getuid = 0) (hchip : env.chip = true) :
    (main w env fuel).status = some 0 ∨ (main w env fuel).status = none := by
  have h1 : ¬ env.getuid ≠ 0 := by simp [hroot]
  have h2 : ¬ env.chip = false := by simp [hchip]
  by_cases h3 : env.line_memcpy = false ∨ env.line_dma = false
  · simp [main, h1, h2, h3]
  by_cases h4 : env.request_memcpy < 0 ∨ env.request_dma < 0
  · simp [main, h1, h2, h3, h4]
  by_cases h5 : env.stat ≠ 0
  · simp [main, h1, h2, h3, h4, h5]
  by_cases h6 : content_len w env = 0
  · simp [main, h1, h2, h3, h4, h5, h6]
  by_cases h7 : env.mem_fd < 0 ∨ env.mbox_fd < 0
  · simp [main, h1, h2, h3, h4, h5, h6, h7]
  by_cases h8 : env.dma_virt_addr = none
  · simp [main, h1, h2, h3, h4, h5, h6, h7, h8]
  by_cases h9 : (cb_alloc env).1 = 0 ∨ (src_alloc w env).1 = 0 ∨ (dst_alloc w env).1 = 0
  · simp [main, h1, h2, h3, h4, h5, h6, h7, h8, h9]
  by_cases h10 : env.src_virt = none ∨ env.dst_virt = none ∨ env.cb_virt = none
  · simp [main, h1, h2, h3, h4, h5, h6, h7, h8, h9, h10]
  by_cases h11 : env.f_in = false
  · simp [main, h1, h2, h3, h4, h5, h6, h7, h8, h9, h10, h11]
  by_cases h12 : env.bytes_read ≠ content_len w env
  · simp [main, h1, h2, h3, h4, h5, h6, h7, h8, h9, h10, h11, h12]
  cases hb : (bench_loop env.cs (cb_lock env).1 (src_lock w env).1 (dst_lock w env).1
      (content_len w env) NUM_RUNS env.cb_mem 0 fuel).2 with
  | none => simp [main, h1, h2, h3, h4, h5, h6, h7, h8, h9, h10, h11, h12, hb]
  | some val =>
    by_cases h13 : env.f_out = false
    · simp [main, h1, h2, h3, h4, h5, h6, h7, h8, h9, h10, h11, h12, hb, h13]
    · simp [main, h1, h2, h3, h4, h5, h6, h7, h8, h9, h10, h11, h12, hb, h13]

/-! ## Failure paths of `main` -/

/-- C1, evaluated on two worlds.  (a) The firmware grants the control block
(handle 5) and the destination block (handle 7) but refuses the source block:
`main` jumps to `cleanup_dma_map`, returns, and no `mem_free` request was sent.
(b) The `mmap` of the source block fails while the control-block and
destination mappings are created: `main` jumps to `cleanup_handles`, frees the
three handles, and the only `munmap` is the one of the register window. -/
theorem C1_acquisition_leaks :
    ((cb_alloc envAllocRefused).1 = 5
      ∧ (src_alloc 64 envAllocRefused).1 = 0
      ∧ (dst_alloc 64 envAllocRefused).1 = 7
      ∧ (main 64 envAllocRefused 1).status = some 0
      ∧ freed_handles (main 64 envAllocRefused 1).trace = [])
    ∧ (mapped (main 64 envMapFailed 1).trace = [0x7000, 0x10000, 0x30000]
      ∧ (main 64 envMapFailed 1).status = some 0
      ∧ unmapped (main 64 envMapFailed 1).trace = [some 0x7000]
      ∧ freed_handles (main 64 envMapFailed 1).trace = [5, 6, 7]) := by
  decide

/-- C2, evaluated on one world per fatal error: GPIO line lookup fails, GPIO
line request fails, source file missing, source file empty, `/dev/mem` not
opened, `/dev/vcio` not opened, register `mmap` fails, a mailbox allocation
fails, a block `mmap` fails, the source file is read short, the destination
file is not opened.  In each of them `main` returns 0. -/
theorem C2_fatal_paths_return_zero :
    (main 64 { idealEnv 5000 0 with line_dma := false } 1).status = some 0
    ∧ (main 64 { idealEnv 5000 0 with request_memcpy := -1 } 1).status = some 0
    ∧ (main 64 { idealEnv 5000 0 with stat := -1 } 1).status = some 0
    ∧ (main 64 (idealEnv 0 0) 1).status = some 0
    ∧ (main 64 { idealEnv 5000 0 with mem_fd := -1 } 1).status = some 0
    ∧ (main 64 { idealEnv 5000 0 with mbox_fd := -1 } 1).status = some 0
    ∧ (main 64 { idealEnv 5000 0 with dma_virt_addr := none } 1).status = some 0
    ∧ (main 64 envAllocRefused 1).status = some 0
    ∧ (main 64 envMapFailed 1).status = some 0
    ∧ (main 64 { idealEnv 5000 0 with bytes_read := 4999 } 1).status = some 0
    ∧ (main 64 { idealEnv 5000 0 with f_out := false } 1).status = some 0 := by
  decide

/-- C3, evaluated on two worlds.  (a) The `ioctl` of `mem_lock(cb_handle)`
fails, so `cb_bus` is 0: `main` maps the control block at offset 0, runs the
ten iterations and writes 0 into `conblk_ad`.  (b) The `ioctl` of
`mem_lock(src_handle)` fails, so `src_bus` is 0: `main` maps the source block
at offset 0 and every control block it fills has `source_ad = 0`. -/
theorem C3_lock_failure_not_checked :
    ((cb_lock envCbLockFail).1 = 0
      ∧ Event.mmap PAGE_SIZE 0 (some 0x10000) ∈ (main 64 envCbLockFail 1).trace
      ∧ Event.reg_write Reg.conblk_ad 0 ∈ (main 64 envCbLockFail 1).trace
      ∧ (cb_fills (main 64 envCbLockFail 1).trace).length = 10
      ∧ (main 64 envCbLockFail 1).status = some 0)
    ∧ ((src_lock 64 envSrcLockFail).1 = 0
      ∧ Event.mmap 8192 0 (some 0x20000) ∈ (main 64 envSrcLockFail 1).trace
      ∧ (cb_fills (main 64 envSrcLockFail 1).trace).map (fun cb => cb.source_ad)
          = List.replicate 10 0
      ∧ (main 64 envSrcLockFail 1).status = some 0) := by
  decide

/-! ## The control block -/

/-- The polling loop fills no control block. -/
theorem poll_cb_fills (cs : Nat → Nat) (fuel : Nat) :
    ∀ pos, cb_fills (poll cs pos fuel).1 = [] := by
  induction fuel with
  | zero => intro pos; rfl
  | succ n ih =>
    intro pos
    unfold poll
    split
    · have := ih (pos + 1)
      simpa [cb_fills] using this
    · rfl

/-- One iteration fills the control block exactly once. -/
theorem bench_run_cb_fills (cs : Nat → Nat) (cb_bus s d L : Nat) (cb : dma_cb_t)
    (pos fuel : Nat) :
    cb_fills (bench_run cs cb_bus s d L cb pos fuel).1 = [fill_cb cb s d L] := by
  have hp := poll_cb_fills cs fuel pos
  unfold bench_run
  dsimp only
  split
  · simp only [cb_fills, List.filterMap_append] at hp ⊢
    rw [hp]; rfl
  · simp only [cb_fills, List.filterMap_append] at hp ⊢
    rw [hp]; rfl

/-- Every control block that a run of `main` fills. -/
theorem main_cb_fills (w : Nat) (env : Env) (fuel : Nat) :
    ∀ c ∈ cb_fills (main w env fuel).trace,
      c = ⟨0x110, (src_lock w env).1, (dst_lock w env).1, content_len w env % 2 ^ 32, 0, 0,
        env.cb_mem.rsvd⟩ := by
  intro c hc
  simp only [cb_fills, List.mem_filterMap] at hc
  obtain ⟨e, he, hec⟩ := hc
  have hm := main_events w env fuel e he
  cases e <;> simp at hec
  subst hec
  exact hm

/-- C7, refuted as stated: on a build with a 64-bit `size_t`, with a source
file of 2^32 + 1 bytes and every call succeeding, `main` reaches the benchmark
loop with `content_len = 2^32 + 1` and each of the ten control blocks it fills
has `txfr_len = 1`. -/
theorem C7_counterexample :
    content_len 64 (idealEnv (2 ^ 32 + 1) 0) = 2 ^ 32 + 1
    ∧ (cb_fills (main 64 (idealEnv (2 ^ 32 + 1) 0) 1).trace).map (fun cb => cb.txfr_len)
        = List.replicate 10 1 := by
  decide

/-- C7, amended: for a payload length below 2^32 the control block after the
fill has `ti = 0x110` (exactly bits 4 and 8), `source_ad = src_bus`,
`dest_ad = dst_bus`, `txfr_len = L`, `stride = 0`, `next_cb = 0` and the two
reserved words it had before.  This is the block each benchmark iteration
leaves in memory and the only fill of the iteration; and in every run of
`main`, finished or still polling, every filled control block holds the values
returned by `mem_lock(src_handle)` and `mem_lock(dst_handle)`, whatever `mmap`
returned. -/
theorem C7_descriptor_amended (cs : Nat → Nat) (cb_bus src_bus dst_bus L : Nat)
    (cb : dma_cb_t) (pos fuel : Nat) (w : Nat) (env : Env) (fuel1 : Nat)
    (hL : L < 2 ^ 32) (hlen : content_len w env < 2 ^ 32) :
    fill_cb cb src_bus dst_bus L = ⟨0x110, src_bus, dst_bus, L, 0, 0, cb.rsvd⟩
    ∧ (∀ i, (fill_cb cb src_bus dst_bus L).ti.testBit i = true ↔ (i = 4 ∨ i = 8))
    ∧ (bench_run cs cb_bus src_bus dst_bus L cb pos fuel).2.1
        = ⟨0x110, src_bus, dst_bus, L, 0, 0, cb.rsvd⟩
    ∧ cb_fills (bench_run cs cb_bus src_bus dst_bus L cb pos fuel).1
        = [⟨0x110, src_bus, dst_bus, L, 0, 0, cb.rsvd⟩]
    ∧ (∀ c ∈ cb_fills (main w env fuel1).trace,
        c = ⟨0x110, (src_lock w env).1, (dst_lock w env).1, content_len w env, 0, 0,
          env.cb_mem.rsvd⟩) := by
  have hfill : fill_cb cb src_bus dst_bus L = ⟨0x110, src_bus, dst_bus, L, 0, 0, cb.rsvd⟩ := by
    rw [fill_cb_eq, Nat.mod_eq_of_lt hL]
  refine ⟨hfill, ?_, ?_, ?_, ?_⟩
  · intro i
    rw [hfill]
    show Nat.testBit 272 i = true ↔ (i = 4 ∨ i = 8)
    by_cases hi : i < 9
    · interval_cases i <;> simp [Nat.testBit]
    · have hlt : 272 < 2 ^ i :=
        lt_of_lt_of_le (by norm_num) (Nat.pow_le_pow_right (by norm_num) (by omega : 9 ≤ i))
      rw [Nat.testBit_lt_two_pow hlt]
      constructor
      · intro h; cases h
      · intro h; omega
  · rw [bench_run_cb, hfill]
  · rw [bench_run_cb_fills, hfill]
  · intro c hc
    have := main_cb_fills w env fuel1 c hc
    rwa [Nat.mod_eq_of_lt hlen] at this

/-- C7 amended, on the cooperative world with a 5000-byte source file: ten
control blocks are filled and each has `txfr_len = 5000` and the bus addresses
of the source and destination blocks. -/
theorem C7_descriptor_amended_witness :
    content_len 64 (idealEnv 5000 0) < 2 ^ 32
    ∧ (cb_fills (main 64 (idealEnv 5000 0) 1).trace).length = 10
    ∧ ∀ c ∈ cb_fills (main 64 (idealEnv 5000 0) 1).trace,
        c = ⟨0x110, 0xC0200000, 0xC0300000, 5000, 0, 0, (0xBEEF, 0xCAFE)⟩ := by
  refine ⟨by decide, by decide, ?_⟩
  exact (C7_descriptor_amended (fun _ => 0) 0 0 0 5000 (idealEnv 5000 0).cb_mem 0 1
    64 (idealEnv 5000 0) 1 (by decide) (by decide)).2.2.2.2

/-! ## The engine handshake -/

/-- The polling loop, when the first read of `cs` with bit 0 clear is read
number `n` (counting from 0) and the fuel allows `n + 1` reads: it performs
exactly the reads 0 to `n` and exits. -/
theorem poll_done (cs : Nat → Nat) (n : Nat) :
    ∀ (pos fuel : Nat),
      (∀ j, j < n → cs (pos + j) &&& DMA_CS_ACTIVE ≠ 0) →
      cs (pos + n) &&& DMA_CS_ACTIVE = 0 →
      n < fuel →
      poll cs pos fuel
        = ((List.range (n + 1)).map (fun j => Event.reg_read Reg.cs (cs (pos + j))),
           some (pos + n + 1)) := by
  induction n with
  | zero =>
    intro pos fuel _ hdone hfuel
    obtain ⟨f, rfl⟩ : ∃ f, fuel = f + 1 := ⟨fuel - 1, by omega⟩
    unfold poll
    rw [if_neg (by simpa using hdone)]
    rfl
  | succ n ih =>
    intro pos fuel hbusy hdone hfuel
    obtain ⟨f, rfl⟩ : ∃ f, fuel = f + 1 := ⟨fuel - 1, by omega⟩
    have h0 : cs pos &&& DMA_CS_ACTIVE ≠ 0 := by simpa using hbusy 0 (by omega)
    have hrec := ih (pos + 1) f
      (fun j hj => by
        have := hbusy (j + 1) (by omega)
        rwa [show pos + (j + 1) = pos + 1 + j by omega] at this)
      (by rwa [show pos + (n + 1) = pos + 1 + n by omega] at hdone)
      (by omega)
    unfold poll
    rw [if_pos h0]
    dsimp only
    rw [hrec, List.range_succ_eq_map (n + 1)]
    simp only [List.map_cons, List.map_map, Nat.add_zero, Prod.mk.injEq, List.cons.injEq,
      true_and]
    refine ⟨?_, by congr 1; omega⟩
    apply List.map_congr_left
    intro j _
    simp only [Function.comp_apply]
    congr 2
    omega

/-- The polling loop, while every read of `cs` shows bit 0 set: it is still
spinning when the fuel is used up, having done nothing but read `cs`. -/
theorem poll_busy (cs : Nat → Nat) (fuel : Nat) :
    ∀ (pos : Nat),
      (∀ j, j < fuel → cs (pos + j) &&& DMA_CS_ACTIVE ≠ 0) →
      poll cs pos fuel
        = ((List.range fuel).map (fun j => Event.reg_read Reg.cs (cs (pos + j))), none) := by
  induction fuel with
  | zero => intro pos _; rfl
  | succ f ih =>
    intro pos hbusy
    have h0 : cs pos &&& DMA_CS_ACTIVE ≠ 0 := by simpa using hbusy 0 (by omega)
    have hrec := ih (pos + 1)
      (fun j hj => by
        have := hbusy (j + 1) (by omega)
        rwa [show pos + (j + 1) = pos + 1 + j by omega] at this)
    unfold poll
    rw [if_pos h0]
    dsimp only
    rw [hrec, List.range_succ_eq_map f]
    simp only [List.map_cons, List.map_map, Nat.add_zero, Prod.mk.injEq, List.cons.injEq,
      true_and, and_true]
    apply List.map_congr_left
    intro j _
    simp only [Function.comp_apply]
    congr 2
    omega

/-- A list of reads of `cs` consists of register accesses only. -/
theorem reg_events_reads (g : Nat → Nat) (l : List Nat) :
    reg_events (l.map (fun j => Event.reg_read Reg.cs (g j)))
      = l.map (fun j => Event.reg_read Reg.cs (g j)) := by
  induction l with
  | nil => rfl
  | cons a l ih =>
    simp only [reg_events, List.map_cons, List.filter_cons] at ih ⊢
    rw [ih]; rfl

/-- C8: the register accesses of one benchmark iteration.  If the first read
of `cs` whose bit 0 is clear is read number `n` of the iteration (all earlier
reads show bit 0 set), then with fuel for more than `n` reads the iteration
completes, and its register accesses are exactly: write `cs := 0x80000000`,
write `conblk_ad := cb_bus`, write `cs := 1`, then the reads 0 to `n` of `cs`,
and nothing else; the iteration has consumed exactly `n + 1` reads.  With fuel
for at most `n` reads the iteration has not completed: it has done the same
three writes followed by reads of `cs` only.  In every run of `main` the value
written to `conblk_ad` is the one returned by `mem_lock(cb_handle)` and the
values written to `cs` are the reset bit and the active bit. -/
theorem C8_engine_handshake (cs : Nat → Nat) (cb_bus src_bus dst_bus L : Nat)
    (cb : dma_cb_t) (pos n fuel : Nat)
    (hbusy : ∀ j, j < n → cs (pos + j) &&& DMA_CS_ACTIVE ≠ 0)
    (hdone : cs (pos + n) &&& DMA_CS_ACTIVE = 0)
    (hfuel : n < fuel) :
    reg_events (bench_run cs cb_bus src_bus dst_bus L cb pos fuel).1
        = [Event.reg_write Reg.cs 0x80000000,
           Event.reg_write Reg.conblk_ad cb_bus,
           Event.reg_write Reg.cs 1]
          ++ (List.range (n + 1)).map (fun j => Event.reg_read Reg.cs (cs (pos + j)))
    ∧ (bench_run cs cb_bus src_bus dst_bus L cb pos fuel).2.2 = some (pos + n + 1)
    ∧ (∀ fuel1, fuel1 ≤ n →
        (bench_run cs cb_bus src_bus dst_bus L cb pos fuel1).2.2 = none
        ∧ reg_events (bench_run cs cb_bus src_bus dst_bus L cb pos fuel1).1
            = [Event.reg_write Reg.cs 0x80000000,
               Event.reg_write Reg.conblk_ad cb_bus,
               Event.reg_write Reg.cs 1]
              ++ (List.range fuel1).map (fun j => Event.reg_read Reg.cs (cs (pos + j))))
    ∧ (∀ w env fuel2 r v, Event.reg_write r v ∈ (main w env fuel2).trace →
        (r = Reg.conblk_ad → v = (cb_lock env).1)
        ∧ (r = Reg.cs → v = 0x80000000 ∨ v = 1)) := by
  have hp := poll_done cs n pos fuel hbusy hdone hfuel
  refine ⟨?_, ?_, ?_, ?_⟩
  · unfold bench_run
    dsimp only
    rw [hp]
    dsimp only
    have hr := reg_events_reads (fun j => cs (pos + j)) (List.range (n + 1))
    simp only [reg_events, List.filter_append] at hr ⊢
    rw [hr]
    simp [List.filter, DMA_CS_RESET, DMA_CS_ACTIVE]
  · unfold bench_run
    dsimp only
    rw [hp]
  · intro fuel1 hle
    have hq := poll_busy cs fuel1 pos (fun j hj => hbusy j (by omega))
    constructor
    · unfold bench_run
      dsimp only
      rw [hq]
    · unfold bench_run
      dsimp only
      rw [hq]
      dsimp only
      have hr := reg_events_reads (fun j => cs (pos + j)) (List.range fuel1)
      simp only [reg_events, List.filter_append] at hr ⊢
      rw [hr]
      simp [List.filter, DMA_CS_RESET, DMA_CS_ACTIVE]
  · intro w env fuel2 r v hmem
    have hm := main_events w env fuel2 _ hmem
    cases r
    · refine ⟨(fun h => by cases h), fun _ => ?_⟩
      simpa [main_event, DMA_CS_RESET, DMA_CS_ACTIVE] using hm
    · refine ⟨fun _ => ?_, (fun h => by cases h)⟩
      simpa [main_event] using hm

/-- C8, on an engine that shows the active bit for two reads and clears it at
the third: the iteration does the three writes, reads `cs` three times and
completes. -/
theorem C8_engine_handshake_witness :
    (∀ j, j < 2 → (idealEnv 5000 2).cs (0 + j) &&& DMA_CS_ACTIVE ≠ 0)
    ∧ (idealEnv 5000 2).cs (0 + 2) &&& DMA_CS_ACTIVE = 0
    ∧ reg_events (bench_run (idealEnv 5000 2).cs 0xC0100000 0xC0200000 0xC0300000 5000
        (idealEnv 5000 2).cb_mem 0 5).1
      = [Event.reg_write Reg.cs 0x80000000,
         Event.reg_write Reg.conblk_ad 0xC0100000,
         Event.reg_write Reg.cs 1,
         Event.reg_read Reg.cs 1,
         Event.reg_read Reg.cs 1,
         Event.reg_read Reg.cs 0] :=
  ⟨by decide, by decide,
   (C8_engine_handshake (idealEnv 5000 2).cs 0xC0100000 0xC0200000 0xC0300000 5000
    (idealEnv 5000 2).cb_mem 0 2 5 (by decide) (by decide) (by decide)).1⟩

/-! ## Allocation size -/

/-- Masking a `w`-bit value with `2 ^ w - 4096` clears its low twelve bits. -/
theorem and_high_mask (w x : Nat) (hw : 12 ≤ w) (hx : x < 2 ^ w) :
    x &&& (2 ^ w - 4096) = x / 4096 * 4096 := by
  have hm : 2 ^ w - 4096 = (2 ^ (w - 12) - 1) <<< 12 := by
    have : 2 ^ w = 2 ^ (w - 12) * 2 ^ 12 := by
      rw [← pow_add]; congr 1; omega
    rw [Nat.shiftLeft_eq, Nat.sub_mul, ← this]
  have hr : x / 4096 * 4096 = (x >>> 12) <<< 12 := by
    rw [Nat.shiftLeft_eq, Nat.shiftRight_eq_div_pow]
  rw [hm, hr]
  apply Nat.eq_of_testBit_eq
  intro i
  rw [Nat.testBit_and, Nat.testBit_shiftLeft, Nat.testBit_shiftLeft,
    Nat.testBit_two_pow_sub_one, Nat.testBit_shiftRight]
  by_cases hi : 12 ≤ i
  · have e : 12 + (i - 12) = i := by omega
    rw [e]
    by_cases hiw : i < w
    · have : i - 12 < w - 12 := by omega
      simp [hi, this]
    · have hlt : x < 2 ^ i :=
        lt_of_lt_of_le hx (Nat.pow_le_pow_right (by norm_num) (by omega))
      simp [Nat.testBit_lt_two_pow hlt]
  · simp [hi]

/-- Without wrap-around, `alloc_len` rounds up to the next multiple of 4096. -/
theorem alloc_len_eq (w L : Nat) (hw : 32 ≤ w) (hle : L ≤ 2 ^ 32 - 4096) :
    alloc_len w L = (L + 4095) / 4096 * 4096 := by
  have h32 : (2 : Nat) ^ 32 ≤ 2 ^ w := Nat.pow_le_pow_right (by norm_num) hw
  have hlt : L + 4095 < 2 ^ w := by
    have : L + 4095 < 2 ^ 32 := by norm_num at hle ⊢; omega
    omega
  unfold alloc_len PAGE_SIZE
  rw [show L + 4096 - 1 = L + 4095 by omega, Nat.mod_eq_of_lt hlt]
  exact and_high_mask w (L + 4095) (by omega) hlt

/-- C9, refuted as stated: for a source file of 2^32 - 1 bytes the size handed
to `mem_alloc` for the source and the destination block is 0, on a build with
a 64-bit `size_t` and on one with a 32-bit `size_t`; with every call
succeeding, the three allocate requests `main` sends carry the sizes 4096, 0
and 0.  For 2^32 + 1 bytes (64-bit `size_t`) the size is 4096. -/
theorem C9_counterexample :
    content_len 64 (idealEnv (2 ^ 32 - 1) 0) = 2 ^ 32 - 1
    ∧ alloc_size 64 (2 ^ 32 - 1) = 0
    ∧ alloc_size 32 (2 ^ 32 - 1) = 0
    ∧ ((mailbox_requests (main 64 (idealEnv (2 ^ 32 - 1) 0) 1).trace).take 3).map
          (fun mbox_buf => mbox_buf.take 9)
        = [[36, 0, 0x3000c, 12, 0, 4096, 4096, 12, 0],
           [36, 0, 0x3000c, 12, 0, 0, 4096, 12, 0],
           [36, 0, 0x3000c, 12, 0, 0, 4096, 12, 0]]
    ∧ alloc_size 64 (2 ^ 32 + 1) = 4096 := by
  decide

/-- C9, amended: for every payload length `L` with `0 < L ≤ 2^32 - 4096`, on a
build whose `size_t` has at least 32 bits, the size `main` hands to `mem_alloc`
for the source and for the destination block is the smallest multiple of 4096
that is at least `L`; it equals the `size_t` value `alloc_len` used as the
`mmap` length, and the `txfr_len` written to the control block does not exceed
it. -/
theorem C9_alloc_size_amended (w L : Nat) (env : Env) (cb : dma_cb_t)
    (src_bus dst_bus : Nat)
    (hw : 32 ≤ w) (hpos : 0 < L) (hle : L ≤ 2 ^ 32 - 4096)
    (henv : content_len w env = L) :
    4096 ∣ alloc_size w L
    ∧ L ≤ alloc_size w L
    ∧ (∀ m, 4096 ∣ m → L ≤ m → alloc_size w L ≤ m)
    ∧ alloc_len w L = alloc_size w L
    ∧ (fill_cb cb src_bus dst_bus L).txfr_len ≤ alloc_size w L
    ∧ (src_alloc w env).2
        = [Event.ioctl (mem_alloc_buf (env.stack 1) (alloc_size w L) PAGE_SIZE
            MEM_FLAG_L1_NONALLOCATING)]
    ∧ (dst_alloc w env).2
        = [Event.ioctl (mem_alloc_buf (env.stack 2) (alloc_size w L) PAGE_SIZE
            MEM_FLAG_L1_NONALLOCATING)] := by
  have hlen := alloc_len_eq w L hw hle
  have hbound : L ≤ 4294963200 := by norm_num at hle; exact hle
  have hsize : alloc_size w L = (L + 4095) / 4096 * 4096 := by
    unfold alloc_size
    rw [hlen]
    apply Nat.mod_eq_of_lt
    norm_num
    omega
  refine ⟨?_, ?_, ?_, ?_, ?_, ?_, ?_⟩
  · rw [hsize]; exact Nat.dvd_mul_left _ _
  · rw [hsize]; omega
  · intro m hm hLm
    obtain ⟨k, rfl⟩ := hm
    rw [hsize]; omega
  · rw [hsize, hlen]
  · rw [fill_cb_eq, hsize]
    show L % 2 ^ 32 ≤ _
    rw [Nat.mod_eq_of_lt (by norm_num; omega)]
    omega
  · rw [src_alloc, mem_alloc_events, henv]
  · rw [dst_alloc, mem_alloc_events, henv]

/-- C9 amended, for a 5000-byte source file on a 64-bit build: the size is
8192. -/
theorem C9_alloc_size_amended_witness :
    32 ≤ 64 ∧ 0 < 5000 ∧ 5000 ≤ 2 ^ 32 - 4096
    ∧ content_len 64 (idealEnv 5000 0) = 5000
    ∧ alloc_size 64 5000 = 8192
    ∧ 5000 ≤ alloc_size 64 5000
    ∧ 4096 ∣ alloc_size 64 5000 := by
  have h := C9_alloc_size_amended 64 5000 (idealEnv 5000 0) (idealEnv 5000 0).cb_mem 0 0
    (by decide) (by decide) (by decide) (by decide)
  exact ⟨by decide, by decide, by decide, by decide, by decide, h.2.1, h.1⟩

/-! ## Bus address to physical offset -/

/-- The mask `~0xC0000000` is `2 ^ 30 - 1`. -/
theorem not32_alias_bits : not32 0xC0000000 = 2 ^ 30 - 1 := by
  decide

/-- C10: for every 32-bit bus address `b` that is a multiple of 4096, the
`mmap` offset `b & ~0xC0000000` equals `b mod 2^30`: its bits below 30 are
those of `b`, its bits from 30 up are clear, and it differs from `b` by the
two alias bits only; it is a multiple of 4096.  In every run of `main` the
offset of each `mmap` is either the register base or this offset computed from
the value returned by `mem_lock` for one of the three blocks. -/
theorem C10_bus_to_phys (b : Nat) (hb : b < 2 ^ 32) (hal : 4096 ∣ b) :
    bus_to_phys b = b % 2 ^ 30
    ∧ (∀ i, (bus_to_phys b).testBit i = (decide (i < 30) && b.testBit i))
    ∧ (bus_to_phys b + 2 ^ 30 * (b / 2 ^ 30) = b ∧ b / 2 ^ 30 < 4)
    ∧ 4096 ∣ bus_to_phys b
    ∧ (∀ w env fuel length offset result,
        Event.mmap length offset result ∈ (main w env fuel).trace →
          offset = DMA_BASE ∨ offset = bus_to_phys (cb_lock env).1
            ∨ offset = bus_to_phys (src_lock w env).1
            ∨ offset = bus_to_phys (dst_lock w env).1) := by
  have hmod : bus_to_phys b = b % 2 ^ 30 := by
    unfold bus_to_phys
    rw [not32_alias_bits, Nat.and_pow_two_sub_one_eq_mod]
  refine ⟨hmod, ?_, ?_, ?_, ?_⟩
  · intro i
    rw [hmod, Nat.testBit_mod_two_pow]
  · rw [hmod]
    constructor
    · exact Nat.mod_add_div b (2 ^ 30)
    · norm_num at hb ⊢
      omega
  · rw [hmod]
    exact (Nat.dvd_mod_iff (by norm_num : 4096 ∣ 2 ^ 30)).2 hal
  · intro w env fuel length offset result hmem
    have hm := main_events w env fuel _ hmem
    simpa [main_event] using hm

/-- C10, for the bus address 0xC0100000: the offset is 0x100000. -/
theorem C10_bus_to_phys_witness :
    0xC0100000 < 2 ^ 32 ∧ 4096 ∣ 0xC0100000 ∧ bus_to_phys 0xC0100000 = 0x100000
    ∧ 4096 ∣ bus_to_phys 0xC0100000 := by
  have h := C10_bus_to_phys 0xC0100000 (by decide) (by decide)
  exact ⟨by decide, by decide, by decide, h.2.2.2.1⟩

end DmaBenchmark
